import Mathlib

/-!
# sish: the SSH muxer service (`sshmuxer.Start`)

A shallow embedding of `src/sshmuxer/sshmuxer.go`.

* Every goroutine body of `Start` is a function from what the goroutine
  observes (results of library calls, the branch a `select` takes, the clock)
  to the list of actions it performs, in program order.
* Where the interplay of goroutines matters, the goroutines are put together
  as a step machine: one step is one statement of one goroutine, and a
  schedule is a list of steps.
* Times and durations are integers (nanoseconds).
-/

namespace Sshmuxer

/-! ## Configuration (the `viper` keys read by `Start`) -/

/-- Values of the configuration keys that `Start` reads after startup parsing. -/
structure Config where
  whitelistedCountries : String
  whitelistedIPs : String
  bannedCountries : String
  bannedIPs : String
  enableGeodb : Bool
  debug : Bool
  cleanupUnbound : Bool
  pingClient : Bool
  pingClientInterval : Int
  connectionIdleTimeout : Int
  deriving DecidableEq, Repr

/-! ## The IP filter options (lines 57-75) -/

/-- Go `strings.FieldsFunc`, worker: `cur` is the field being read, reversed. -/
def fieldsFuncAux (f : Char → Bool) : List Char → List Char → List String
  | [], cur => if cur.isEmpty then [] else [String.mk cur.reverse]
  | c :: cs, cur =>
    if f c then
      (if cur.isEmpty then fieldsFuncAux f cs []
       else String.mk cur.reverse :: fieldsFuncAux f cs [])
    else fieldsFuncAux f cs (c :: cur)

/-- Go `strings.FieldsFunc(s, f)`: the maximal runs of characters of `s` that do
not satisfy `f`; empty when every character satisfies `f`. -/
def fieldsFunc (s : String) (f : Char → Bool) : List String :=
  fieldsFuncAux f s.data []

/-- Modelled from the spec: `utils.CommaSplitFields` is not under `src/`; the
spec calls the four lists "comma-separated lists", so the separator test is
"the character is a comma". -/
def commaSplitFields (c : Char) : Bool := c == ','

/-- The closure `upperList` (lines 57-64): split at commas, then upper-case
every element in place. `toUpper` stands for Go `strings.ToUpper`. -/
def upperList (toUpper : String → String) (stringList : String) : List String :=
  (fieldsFunc stringList commaSplitFields).map toUpper

/-- The record `ipfilter.Options` as filled by `Start`. -/
structure Options where
  BlockedCountries : List String
  AllowedCountries : List String
  BlockedIPs : List String
  AllowedIPs : List String
  BlockByDefault : Bool
  deriving DecidableEq, Repr

/-- Lines 66-75 of `Start`. -/
def ipfilterOpts (toUpper : String → String) (cfg : Config) : Options :=
  let whitelistedCountriesList := upperList toUpper cfg.whitelistedCountries
  let whitelistedIPList := fieldsFunc cfg.whitelistedIPs commaSplitFields
  { BlockedCountries := upperList toUpper cfg.bannedCountries
    AllowedCountries := whitelistedCountriesList
    BlockedIPs := fieldsFunc cfg.bannedIPs commaSplitFields
    AllowedIPs := whitelistedIPList
    BlockByDefault :=
      decide (whitelistedIPList.length > 0) || decide (whitelistedCountriesList.length > 0) }

/-! ## Actions -/

/-- The goroutines that `Start` spawns for one connection. -/
inductive Task
  | unboundWatchdog
  | connTask
  | transportWatcher
  | handleRequests
  | handleChannels
  | idleWatchdog
  | pinger
  deriving DecidableEq, Repr

/-- One observable action of a goroutine. -/
inductive Event
  /-- The call `conn.Close()` on the raw connection. -/
  | connClose
  /-- A call of `log.Println`. -/
  | log (line : String)
  /-- A `go` statement. -/
  | spawn (t : Task)
  /-- The call `ssh.NewServerConn(conn, sshConfig)`. -/
  | newServerConn
  /-- The assignment `clientLoggedIn = true`. -/
  | setLoggedIn
  /-- The call `state.SSHConnections.Store(key, holderConn)`. -/
  | store (key : String)
  /-- The call `holderConn.SendMessage(msg, flag)`. -/
  | sendMessage (msg : String) (flag : Bool)
  /-- The call `time.Sleep(d)`. -/
  | sleep (d : Int)
  /-- The call `holderConn.CleanUp(state)`. -/
  | cleanUp
  /-- The call `conn.SetDeadline(t)`. -/
  | setDeadline (t : Int)
  /-- The call `sshConn.SendRequest(name, wantReply, nil)`. -/
  | sendRequest (name : String) (wantReply : Bool)
  deriving DecidableEq, Repr

/-- One millisecond in nanoseconds (`time.Millisecond`). -/
def millisecond : Int := 1000000

/-! ## The accept loop (lines 165-190) -/

/-- What one turn of the accept loop gets from `listener.Accept()`: an error, or
a connection with the text of its remote address. -/
inductive Accepted
  | error (err : String)
  | conn (remoteAddr : String)
  deriving DecidableEq, Repr

/-- One turn of the `for` loop, lines 166-192, up to the `go` statement of the
per-connection goroutine. `splitHostPort` is `net.SplitHostPort` (`none` is a
non-nil error) and `blocked` is `filter.Blocked`. -/
def acceptTurn (cfg : Config) (splitHostPort : String → Option (String × String))
    (blocked : String → Bool) : Accepted → List Event
  | .error err => [.log err]
  | .conn remoteAddr =>
    match splitHostPort remoteAddr with
    | none => [.connClose]
    | some (clientRemote, _) =>
      if blocked clientRemote then [.connClose]
      else
        (if cfg.cleanupUnbound then [.spawn .unboundWatchdog] else []) ++
        [.log ("Accepted SSH connection for: " ++ remoteAddr), .spawn .connTask]

/-- The accept loop over the connections that arrive, one turn after the other. -/
def acceptLoop (cfg : Config) (splitHostPort : String → Option (String × String))
    (blocked : String → Bool) : List Accepted → List Event
  | [] => []
  | a :: rest =>
    acceptTurn cfg splitHostPort blocked a ++ acceptLoop cfg splitHostPort blocked rest

/-! ## The unbound-connection watchdog (lines 181-188) -/

/-- Body of the goroutine of lines 182-187, after `<-time.After(5 * time.Second)`
has delivered: `clientLoggedIn` is the value it reads from the shared flag. -/
def unboundWatchdog (clientLoggedIn : Bool) : List Event :=
  if !clientLoggedIn then [.connClose] else []

/-! ## The per-connection goroutine (lines 192-273) -/

/-- What `ssh.NewServerConn` returns: an error, or a connection, of which the
model keeps the text of `sshConn.RemoteAddr()`. -/
inductive Handshake
  | failed (err : String)
  | ok (remoteAddr : String)
  deriving DecidableEq, Repr

/-- Lines 193-272: the handshake, the flag, and on success the registry entry
followed by the `go` statements, in program order. -/
def connTask (cfg : Config) : Handshake → List Event
  | .failed err => [.newServerConn, .setLoggedIn, .connClose, .log err]
  | .ok remoteAddr =>
    [.newServerConn, .setLoggedIn, .store remoteAddr,
      .spawn .transportWatcher, .spawn .handleRequests, .spawn .handleChannels] ++
    (if cfg.cleanupUnbound then [.spawn .idleWatchdog] else []) ++
    (if cfg.pingClient then [.spawn .pinger] else [])

/-! ## The transport-close watcher (lines 211-223) -/

/-- Lines 212-222. `waitErr` is what `sshConn.Wait()` returned (`none` is nil),
`closeFired` says whether a receive from `holderConn.Close` can proceed when the
`select` runs: with a `default` case the `select` takes the receive exactly then. -/
def transportWatcher (cfg : Config) (waitErr : Option String) (closeFired : Bool) :
    List Event :=
  (match waitErr with
    | some err => if cfg.debug then [.log ("Closing SSH connection: " ++ err)] else []
    | none => []) ++
  (if closeFired then [] else [.cleanUp])

/-! ## The idle-forwarding watchdog (lines 228-247) -/

/-- The case of the `select` of lines 230-245 that ends the wait. -/
inductive WatchdogWait
  | timer
  | closed
  deriving DecidableEq, Repr

/-- A Go `select` over the two receives, without `default`: it blocks (`none`)
while neither can proceed, takes the only one that can, and when both can it
takes the one the runtime picks. -/
def watchdogSelect (timerElapsed closeFired : Bool) (pick : WatchdogWait) :
    Option WatchdogWait :=
  match timerElapsed, closeFired with
  | true, true => some pick
  | true, false => some .timer
  | false, true => some .closed
  | false, false => none

/-- Lines 232-236: `Range` calls the function once per entry, each call adds one. -/
def rangeCount (listeners : List String) : Nat :=
  listeners.foldl (fun count _ => count + 1) 0

/-- The text of the eviction message. -/
def evictionMessage : String := "No forwarding requests sent. Closing connection."

/-- Lines 230-245 once the `select` has taken a case; `listeners` are the keys
of `holderConn.Listeners` when `Range` runs. -/
def idleWatchdogBody (wait : WatchdogWait) (listeners : List String) : List Event :=
  match wait with
  | .timer =>
    let count := rangeCount listeners
    if count == 0 then
      [.sendMessage evictionMessage true, .sleep (1 * millisecond), .cleanUp]
    else []
  | .closed => []

/-- The goroutine of lines 229-246: `none` while the `select` blocks. -/
def idleWatchdog (timerElapsed closeFired : Bool) (pick : WatchdogWait)
    (listeners : List String) : Option (List Event) :=
  (watchdogSelect timerElapsed closeFired pick).map (fun w => idleWatchdogBody w listeners)

/-! ## The liveness pinger (lines 249-272) -/

/-- The case of the `select` of lines 260-269 that is taken: a tick, with the
clock value when the probe is sent and whether `SendRequest` returns an error,
or the close signal. -/
inductive PingSelect
  | tick (sentAt : Int) (sendErr : Bool)
  | closed
  deriving DecidableEq, Repr

/-- What one turn of the pinger loop observes: `time.Now()`, whether
`SetDeadline` returns an error, and the `select`. -/
structure PingTurn where
  now : Int
  deadlineErr : Bool
  sel : PingSelect
  deriving DecidableEq, Repr

/-- How far the pinger goroutine has got: `returned` after a `return`,
`running` when it is in the loop with nothing more observed, `panicked` when
`time.NewTicker` refused a non-positive interval. -/
inductive PingStatus
  | returned
  | running
  | panicked
  deriving DecidableEq, Repr

/-- Lines 255-258: the deadline is computed from the clock and written. -/
def pingDeadline (tickDuration idleTimeout : Int) (t : PingTurn) : List Event :=
  .setDeadline (t.now + tickDuration + idleTimeout) ::
    (if t.deadlineErr then [.log "Unable to set deadline"] else [])

/-- The probe of line 262. -/
def keepalive : Event := .sendRequest "keepalive@sish" true

/-- The `for` loop of lines 254-270 over the turns observed. -/
def pingerLoop (tickDuration idleTimeout : Int) : List PingTurn → List Event × PingStatus
  | [] => ([], .running)
  | t :: rest =>
    match t.sel with
    | .closed => (pingDeadline tickDuration idleTimeout t, .returned)
    | .tick _ true =>
      (pingDeadline tickDuration idleTimeout t ++
        [keepalive, .log "Error retrieving keepalive response"], .returned)
    | .tick _ false =>
      let r := pingerLoop tickDuration idleTimeout rest
      (pingDeadline tickDuration idleTimeout t ++ keepalive :: r.1, r.2)

/-- The goroutine of lines 250-271, with `tickDuration` the value of
`ping-client-interval` and `idleTimeout` that of `connection-idle-timeout`
(read in every turn; the configuration does not change). `time.NewTicker`
panics unless the interval is positive. -/
def pinger (cfg : Config) (turns : List PingTurn) : List Event × PingStatus :=
  if cfg.pingClientInterval ≤ 0 then ([], .panicked)
  else pingerLoop cfg.pingClientInterval cfg.connectionIdleTimeout turns

/-! ## All actions of one connection -/

/-- What the goroutines of one connection observe. -/
structure ConnEnv where
  handshake : Handshake
  loggedInAtFiveSeconds : Bool
  waitErr : Option String
  closeFiredAtWait : Bool
  timerElapsed : Bool
  closeFiredAtWatchdog : Bool
  pick : WatchdogWait
  listeners : List String
  turns : List PingTurn
  requestEvents : List Event
  channelEvents : List Event
  deriving Repr

/-- The actions of a spawned goroutine. The request and channel handlers are
other files of the package: what they do is part of the environment. -/
def taskEvents (cfg : Config) (env : ConnEnv) : Task → List Event
  | .unboundWatchdog => unboundWatchdog env.loggedInAtFiveSeconds
  | .connTask => connTask cfg env.handshake
  | .transportWatcher => transportWatcher cfg env.waitErr env.closeFiredAtWait
  | .handleRequests => env.requestEvents
  | .handleChannels => env.channelEvents
  | .idleWatchdog =>
    (idleWatchdog env.timerElapsed env.closeFiredAtWatchdog env.pick env.listeners).getD []
  | .pinger => (pinger cfg env.turns).1

/-- The goroutines started by a list of actions. -/
def spawned : List Event → List Task
  | [] => []
  | .spawn t :: rest => t :: spawned rest
  | _ :: rest => spawned rest

/-- Everything done for one accepted connection: the turn of the accept loop,
then the goroutines it starts, then the goroutines those start (grouped by
goroutine; the order between goroutines is not meant). -/
def connectionEvents (cfg : Config) (splitHostPort : String → Option (String × String))
    (blocked : String → Bool) (env : ConnEnv) (remoteAddr : String) : List Event :=
  let first := acceptTurn cfg splitHostPort blocked (.conn remoteAddr)
  let second := (spawned first).flatMap (taskEvents cfg env)
  let third := (spawned second).flatMap (taskEvents cfg env)
  first ++ second ++ third

/-! ## The watchers of one connection as a step machine (lines 211-272)

One step is one statement of one watcher, or one move of the environment. -/

/-- Where the transport-close watcher stands: in `sshConn.Wait()` (line 212),
before the `select` (line 217), before `CleanUp` (line 221), or at its end. -/
inductive TwPc
  | waiting
  | selecting
  | cleaning
  | done
  deriving DecidableEq, Repr

/-- Where the idle-forwarding watchdog stands: in the `select` (line 230), before
`Range` (line 233), before `SendMessage` (239), `Sleep` (240), `CleanUp` (241),
or at its end (also when it was never started). -/
inductive IwPc
  | selecting
  | counting
  | sending
  | sleeping
  | cleaning
  | done
  deriving DecidableEq, Repr

/-- Where the pinger stands: before `SetDeadline` (line 255), in the `select`
(line 260), or at its end (also when it was never started). -/
inductive PgPc
  | deadline
  | selecting
  | done
  deriving DecidableEq, Repr

/-- State of one authenticated connection and of its three watchers. -/
structure Supervisor where
  /-- The channel `holderConn.Close` has been closed. -/
  closeFired : Bool
  /-- The connection has its entry in `state.SSHConnections`. -/
  registered : Bool
  /-- Number of entries of `holderConn.Listeners`. -/
  listeners : Nat
  /-- The transport has terminated: `sshConn.Wait()` can return. -/
  transportEnded : Bool
  /-- The channel of `time.After(1 * time.Second)` has its value. -/
  timerElapsed : Bool
  tw : TwPc
  iw : IwPc
  pg : PgPc
  /-- Number of calls of `holderConn.CleanUp` so far. -/
  cleanUpCalls : Nat
  /-- Number of those calls that found the close signal already fired. -/
  cleanUpAfterClose : Nat
  /-- Number of calls of `holderConn.SendMessage` so far. -/
  messages : Nat
  /-- Number of calls of `sshConn.SendRequest` so far. -/
  probes : Nat
  deriving DecidableEq, Repr

/-- Modelled from the spec: `SSHConnection.CleanUp` is in package `utils`, not
under `src/`. The spec, 4.4: cleanup "fires the one-shot close signal", "releases
the raw connection, removes the connection's registry entry, and removes every
forwarding listener owned by that connection". Releasing the raw connection
ends the transport. The calls are counted. -/
def Supervisor.cleanUp (s : Supervisor) : Supervisor :=
  { s with
    closeFired := true
    registered := false
    listeners := 0
    transportEnded := true
    cleanUpCalls := s.cleanUpCalls + 1
    cleanUpAfterClose := s.cleanUpAfterClose + (if s.closeFired then 1 else 0) }

/-- The steps. -/
inductive Action
  /-- Environment: the transport terminates. -/
  | transportEnds
  /-- Environment: one second has passed since line 231. -/
  | timerElapses
  /-- Environment: a handler adds a forwarding listener. -/
  | listenerAdded
  /-- Environment: a handler removes a forwarding listener. -/
  | listenerRemoved
  /-- Line 212: `sshConn.Wait()` returns. -/
  | twWaitReturns
  /-- Lines 217-220: the `select` with `default`. -/
  | twSelect
  /-- Line 221. -/
  | twCleanUp
  /-- Lines 230-231, 243: the `select` completes, `pick` is the choice of the runtime. -/
  | iwSelect (pick : WatchdogWait)
  /-- Lines 232-238: the count and its test. -/
  | iwCount
  /-- Line 239. -/
  | iwSend
  /-- Line 240. -/
  | iwSleep
  /-- Line 241. -/
  | iwCleanUp
  /-- Lines 255-258. -/
  | pgDeadline
  /-- Lines 260-269: the `select` takes the tick and the probe is sent. -/
  | pgTick (sendErr : Bool)
  /-- Lines 267-268: the `select` takes the close signal. -/
  | pgClosed
  deriving DecidableEq, Repr

/-- One step; `none` when the step cannot be taken in this state. -/
def Supervisor.step (s : Supervisor) : Action → Option Supervisor
  | .transportEnds => some { s with transportEnded := true }
  | .timerElapses => some { s with timerElapsed := true }
  | .listenerAdded => some { s with listeners := s.listeners + 1 }
  | .listenerRemoved =>
    if 0 < s.listeners then some { s with listeners := s.listeners - 1 } else none
  | .twWaitReturns =>
    if s.tw = .waiting ∧ s.transportEnded then some { s with tw := .selecting } else none
  | .twSelect =>
    if s.tw = .selecting then
      some { s with tw := if s.closeFired then .done else .cleaning }
    else none
  | .twCleanUp =>
    if s.tw = .cleaning then some { s.cleanUp with tw := .done } else none
  | .iwSelect pick =>
    if s.iw = .selecting then
      match watchdogSelect s.timerElapsed s.closeFired pick with
      | some .timer => some { s with iw := .counting }
      | some .closed => some { s with iw := .done }
      | none => none
    else none
  | .iwCount =>
    if s.iw = .counting then
      some { s with iw := if s.listeners == 0 then .sending else .done }
    else none
  | .iwSend =>
    if s.iw = .sending then some { s with iw := .sleeping, messages := s.messages + 1 }
    else none
  | .iwSleep =>
    if s.iw = .sleeping then some { s with iw := .cleaning } else none
  | .iwCleanUp =>
    if s.iw = .cleaning then some { s.cleanUp with iw := .done } else none
  | .pgDeadline =>
    if s.pg = .deadline then some { s with pg := .selecting } else none
  | .pgTick sendErr =>
    if s.pg = .selecting then
      some { s with pg := if sendErr then .done else .deadline, probes := s.probes + 1 }
    else none
  | .pgClosed =>
    if s.pg = .selecting ∧ s.closeFired then some { s with pg := .done } else none

/-- A schedule, step after step; `none` when a step cannot be taken. -/
def Supervisor.run (s : Supervisor) : List Action → Option Supervisor
  | [] => some s
  | a :: rest => (s.step a).bind (fun s1 => s1.run rest)

/-- The connection right after line 209: registered, the transport-close watcher
started, the other two watchers started when their option is set. -/
def Supervisor.start (cfg : Config) : Supervisor :=
  { closeFired := false
    registered := true
    listeners := 0
    transportEnded := false
    timerElapsed := false
    tw := .waiting
    iw := if cfg.cleanupUnbound then .selecting else .done
    pg := if cfg.pingClient then .deadline else .done
    cleanUpCalls := 0
    cleanUpAfterClose := 0
    messages := 0
    probes := 0 }

/-- A configuration with `cleanup-unbound` set and everything else off or empty. -/
def cleanupUnboundOnly : Config :=
  { whitelistedCountries := ""
    whitelistedIPs := ""
    bannedCountries := ""
    bannedIPs := ""
    enableGeodb := false
    debug := false
    cleanupUnbound := true
    pingClient := false
    pingClientInterval := 0
    connectionIdleTimeout := 0 }

/-- The transport ends while the idle-forwarding watchdog sleeps between its
message and its cleanup. -/
def raceSchedule : List Action :=
  [.timerElapses, .iwSelect .timer, .iwCount, .iwSend,
   .transportEnds, .twWaitReturns, .twSelect, .twCleanUp,
   .iwSleep, .iwCleanUp]

/-! ## The handshake and the unbound-connection watchdog as a step machine (lines 179-199) -/

/-- Where the per-connection goroutine stands: inside `ssh.NewServerConn` (line
193), before the assignment of line 194 (with the error flag of the handshake),
before the test of line 195, or past it. -/
inductive HsPc
  | handshaking
  | assigning (err : Bool)
  | checking (err : Bool)
  | past
  deriving DecidableEq, Repr

/-- Where the unbound-connection watchdog stands: never started, in the receive
of line 183, before the test of line 184, or at its end. -/
inductive WdPc
  | absent
  | waiting
  | testing
  | done
  deriving DecidableEq, Repr

/-- State of one accepted connection until the handshake is dealt with. -/
structure Unbound where
  /-- The variable `clientLoggedIn`. -/
  clientLoggedIn : Bool
  hs : HsPc
  wd : WdPc
  /-- Line 185 has run. -/
  closedByWatchdog : Bool
  /-- Line 196 has run. -/
  closedByHandshake : Bool
  /-- Where the per-connection goroutine stood when the five seconds were over. -/
  hsAtWake : Option HsPc
  /-- Where the per-connection goroutine stood when the watchdog tested the flag. -/
  hsAtTest : Option HsPc
  /-- The value of the flag that the watchdog read. -/
  flagAtTest : Option Bool
  deriving DecidableEq, Repr

/-- The steps of the two goroutines. -/
inductive UnboundAction
  /-- Line 193: `ssh.NewServerConn` returns, with an error or not. -/
  | hsReturns (err : Bool)
  /-- Line 194. -/
  | hsAssigns
  /-- Lines 195-199. -/
  | hsChecks
  /-- Line 183: the receive from `time.After(5 * time.Second)` completes. -/
  | wdWakes
  /-- Lines 184-186. -/
  | wdTests
  deriving DecidableEq, Repr

/-- One step; `none` when the step cannot be taken in this state. -/
def Unbound.step (s : Unbound) : UnboundAction → Option Unbound
  | .hsReturns err =>
    match s.hs with
    | .handshaking => some { s with hs := .assigning err }
    | _ => none
  | .hsAssigns =>
    match s.hs with
    | .assigning err => some { s with hs := .checking err, clientLoggedIn := true }
    | _ => none
  | .hsChecks =>
    match s.hs with
    | .checking err =>
      some { s with hs := .past, closedByHandshake := s.closedByHandshake || err }
    | _ => none
  | .wdWakes =>
    if s.wd = .waiting then some { s with wd := .testing, hsAtWake := some s.hs } else none
  | .wdTests =>
    if s.wd = .testing then
      some { s with
        wd := .done
        hsAtTest := some s.hs
        flagAtTest := some s.clientLoggedIn
        closedByWatchdog := s.closedByWatchdog || !s.clientLoggedIn }
    else none

/-- A schedule, step after step; `none` when a step cannot be taken. -/
def Unbound.run (s : Unbound) : List UnboundAction → Option Unbound
  | [] => some s
  | a :: rest => (s.step a).bind (fun s1 => s1.run rest)

/-- The connection at line 192: the flag is false (line 179), the watchdog is
started when `cleanup-unbound` is set (line 181), the handshake begins. -/
def Unbound.start (cfg : Config) : Unbound :=
  { clientLoggedIn := false
    hs := .handshaking
    wd := if cfg.cleanupUnbound then .waiting else .absent
    closedByWatchdog := false
    closedByHandshake := false
    hsAtWake := none
    hsAtTest := none
    flagAtTest := none }

/-- The handshake succeeds, then the five seconds are over and the watchdog tests
the flag before line 194 has run. -/
def lateFlagSchedule : List UnboundAction :=
  [.hsReturns false, .wdWakes, .wdTests, .hsAssigns, .hsChecks]

/-! ## Reading actions off a list -/

/-- The keys stored into `state.SSHConnections` by a list of actions. -/
def stores : List Event → List String
  | [] => []
  | .store key :: rest => key :: stores rest
  | _ :: rest => stores rest

/-- The action is a log line. -/
def Event.isLog : Event → Bool
  | .log _ => true
  | _ => false

/-- The action tears the connection down or writes the shared registry:
`CleanUp` (which fires the close signal and deletes the registry entry),
`conn.Close()`, or a `Store`. -/
def Event.tearsDown : Event → Bool
  | .cleanUp => true
  | .connClose => true
  | .store _ => true
  | _ => false

/-- The arguments of the calls of `conn.SetDeadline` in a list of actions, in order. -/
def deadlinesWritten : List Event → List Int
  | [] => []
  | .setDeadline t :: rest => t :: deadlinesWritten rest
  | _ :: rest => deadlinesWritten rest

/-- Number of keepalive probes sent in a list of actions. -/
def probesSent : List Event → Nat
  | [] => 0
  | .sendRequest _ _ :: rest => probesSent rest + 1
  | _ :: rest => probesSent rest

/-- The `select` of the pinger took the tick. -/
def PingSelect.isTick : PingSelect → Bool
  | .tick _ _ => true
  | .closed => false

/-- The turns the pinger loop goes through: all of them up to and including the
first in which it returns. -/
def executed : List PingTurn → List PingTurn
  | [] => []
  | t :: rest =>
    match t.sel with
    | .tick _ false => t :: executed rest
    | _ => [t]

/-- Number of ticks of the ticker taken by the `select` in a list of turns. -/
def ticksTaken : List PingTurn → Nat
  | [] => 0
  | t :: rest => (if t.sel.isTick then 1 else 0) + ticksTaken rest

/-- A five-second interval and a one-second idle timeout, `ping-client` set. -/
def pingEveryFiveSeconds : Config :=
  { cleanupUnboundOnly with
    cleanupUnbound := false
    pingClient := true
    pingClientInterval := 5000000000
    connectionIdleTimeout := 1000000000 }

/-- Line 194 has run: the per-connection goroutine is at line 195 or past it. -/
def HsPc.flagAssigned : HsPc → Bool
  | .checking _ => true
  | .past => true
  | _ => false

/-- What holds of the two goroutines in every state they can reach. -/
def Unbound.Inv (s : Unbound) : Prop :=
  s.clientLoggedIn = s.hs.flagAssigned ∧
  (s.wd ≠ .done → s.closedByWatchdog = false ∧ s.hsAtTest = none ∧ s.flagAtTest = none) ∧
  (s.wd = .done → ∃ pc, s.hsAtTest = some pc ∧ s.flagAtTest = some pc.flagAssigned ∧
    s.closedByWatchdog = !pc.flagAssigned)

/-- The state in which `lateFlagSchedule` ends. -/
def lateFlagEnd : Unbound :=
  { clientLoggedIn := true
    hs := .past
    wd := .done
    closedByWatchdog := true
    closedByHandshake := false
    hsAtWake := some (.assigning false)
    hsAtTest := some (.assigning false)
    flagAtTest := some false }

/-! ## The accept loop: filtered connections -/

/-- C1: when `net.SplitHostPort` fails on the remote address of an accepted
connection, or the filter blocks its host, the turn of the accept loop does
nothing but close the connection, the loop goes on with the next connection,
and nothing else is ever done for that connection: no handshake, no registry
entry, no watchdog, no "Accepted SSH connection" line. -/
theorem filtered_connection_is_only_closed (cfg : Config)
    (splitHostPort : String → Option (String × String)) (blocked : String → Bool)
    (env : ConnEnv) (remoteAddr : String) (rest : List Accepted)
    (h : splitHostPort remoteAddr = none ∨
      ∃ host port, splitHostPort remoteAddr = some (host, port) ∧ blocked host = true) :
    acceptTurn cfg splitHostPort blocked (.conn remoteAddr) = [.connClose] ∧
    connectionEvents cfg splitHostPort blocked env remoteAddr = [.connClose] ∧
    acceptLoop cfg splitHostPort blocked (.conn remoteAddr :: rest) =
      .connClose :: acceptLoop cfg splitHostPort blocked rest := by
  have turn : acceptTurn cfg splitHostPort blocked (.conn remoteAddr) = [.connClose] := by
    rcases h with h | ⟨host, port, hs, hb⟩
    · simp [acceptTurn, h]
    · simp [acceptTurn, hs, hb]
  refine ⟨turn, ?_, ?_⟩
  · simp [connectionEvents, turn, spawned]
  · simp [acceptLoop, turn]

/-- Witness of C1: the address "nonsense" does not split. -/
theorem filtered_connection_is_only_closed_witness :
    acceptTurn cleanupUnboundOnly (fun _ => none) (fun _ => false) (.conn "nonsense")
      = [.connClose] :=
  (filtered_connection_is_only_closed cleanupUnboundOnly (fun _ => none) (fun _ => false)
    ⟨.failed "", false, none, false, false, false, .timer, [], [], [], []⟩
    "nonsense" [] (Or.inl rfl)).1

/-! ## The per-connection goroutine: handshake -/

/-- C9: after a failed handshake the per-connection goroutine closes the raw
connection, stores nothing in `state.SSHConnections` and starts no goroutine;
after a successful one it stores exactly one entry, keyed by the remote address
of the SSH connection, and every goroutine it starts comes after that store:
the transport-close watcher and the two handlers first. -/
theorem handshake_failure_stores_nothing (cfg : Config) (err remoteAddr : String) :
    (Event.connClose ∈ connTask cfg (.failed err) ∧
      stores (connTask cfg (.failed err)) = [] ∧
      spawned (connTask cfg (.failed err)) = []) ∧
    (stores (connTask cfg (.ok remoteAddr)) = [remoteAddr] ∧
      ∃ more : List Task,
        connTask cfg (.ok remoteAddr) =
          [.newServerConn, .setLoggedIn, .store remoteAddr] ++
            ([Task.transportWatcher, .handleRequests, .handleChannels] ++ more).map Event.spawn) := by
  refine ⟨⟨by simp [connTask], by simp [connTask, stores], by simp [connTask, spawned]⟩, ?_, ?_⟩
  · cases h1 : cfg.cleanupUnbound <;> cases h2 : cfg.pingClient <;>
      simp [connTask, stores, h1, h2]
  · cases h1 : cfg.cleanupUnbound <;> cases h2 : cfg.pingClient
    · exact ⟨[], by simp [connTask, h1, h2]⟩
    · exact ⟨[.pinger], by simp [connTask, h1, h2]⟩
    · exact ⟨[.idleWatchdog], by simp [connTask, h1, h2]⟩
    · exact ⟨[.idleWatchdog, .pinger], by simp [connTask, h1, h2]⟩

/-! ## The transport-close watcher -/

/-- C6: whatever `sshConn.Wait()` returns, the transport-close watcher calls
`CleanUp` if and only if the close signal has not fired when its `select` runs,
and then once; when the signal has fired it does nothing but, in debug mode,
log the error. -/
theorem transport_watcher_cleans_iff_not_fired (cfg : Config) (waitErr : Option String)
    (closeFired : Bool) :
    (Event.cleanUp ∈ transportWatcher cfg waitErr closeFired ↔ closeFired = false) ∧
    (transportWatcher cfg waitErr closeFired).count .cleanUp = (if closeFired then 0 else 1) ∧
    (transportWatcher cfg waitErr true).all Event.isLog = true := by
  cases waitErr <;> cases closeFired <;> cases hd : cfg.debug <;>
    simp [transportWatcher, hd, Event.isLog]

/-! ## The idle-forwarding watchdog -/

/-- C3: with `cleanup-unbound` set the watchdog is started after a successful
handshake; when the second has elapsed, the close signal has not fired and
`holderConn.Listeners` is empty, it sends the eviction message once, with the
flag set, sleeps a millisecond and then calls `CleanUp` once. -/
theorem idle_watchdog_evicts_empty_connection (cfg : Config) (remoteAddr : String)
    (pick : WatchdogWait) (h : cfg.cleanupUnbound = true) :
    Event.spawn .idleWatchdog ∈ connTask cfg (.ok remoteAddr) ∧
    idleWatchdog true false pick [] =
      some [.sendMessage "No forwarding requests sent. Closing connection." true,
        .sleep 1000000, .cleanUp] := by
  constructor
  · simp [connTask, h]
  · simp [idleWatchdog, watchdogSelect, idleWatchdogBody, rangeCount, evictionMessage,
      millisecond]

/-- Witness of C3, at the configuration with only `cleanup-unbound` set. -/
theorem idle_watchdog_evicts_empty_connection_witness :
    idleWatchdog true false .closed [] =
      some [.sendMessage "No forwarding requests sent. Closing connection." true,
        .sleep 1000000, .cleanUp] :=
  (idle_watchdog_evicts_empty_connection cleanupUnboundOnly "10.0.0.1:22" .closed rfl).2

/-- The count of line 232-236 is the number of entries. -/
theorem rangeCount_eq_length (listeners : List String) :
    rangeCount listeners = listeners.length := by
  have gen : ∀ (l : List String) (n : Nat),
      l.foldl (fun count _ => count + 1) n = n + l.length := by
    intro l
    induction l with
    | nil => intro n; simp
    | cons a l ih => intro n; simp [List.foldl_cons, ih]; omega
  simpa [rangeCount] using gen listeners 0

/-- C4: when `holderConn.Listeners` has an entry at the time the watchdog counts,
or when the close signal is what ends the wait of the watchdog, the watchdog
sends no message and does not call `CleanUp`: it does nothing at all. -/
theorem idle_watchdog_spares_bound_connection (timerElapsed closeFired : Bool)
    (pick : WatchdogWait) (listeners : List String)
    (h : listeners ≠ [] ∨ watchdogSelect timerElapsed closeFired pick = some .closed) :
    idleWatchdogBody .closed listeners = [] ∧
    (idleWatchdog timerElapsed closeFired pick listeners).getD [] = [] := by
  refine ⟨rfl, ?_⟩
  rcases h with h | h
  · have hlen : rangeCount listeners ≠ 0 := by
      rw [rangeCount_eq_length]
      exact fun h0 => h (List.length_eq_zero.mp h0)
    cases hsel : watchdogSelect timerElapsed closeFired pick with
    | none => simp [idleWatchdog, hsel]
    | some w => cases w <;> simp [idleWatchdog, hsel, idleWatchdogBody, hlen]
  · simp [idleWatchdog, h, idleWatchdogBody]

/-- Witness of C4: one listener, the timer ends the wait. -/
theorem idle_watchdog_spares_bound_connection_witness :
    (idleWatchdog true false .timer ["0.0.0.0:8080"]).getD [] = [] :=
  (idle_watchdog_spares_bound_connection true false .timer ["0.0.0.0:8080"]
    (Or.inl (by simp))).2

/-! ## The IP filter options -/

/-- The worker of `fieldsFunc` yields no field exactly when no field is being
read and every character left is a separator. -/
theorem fieldsFuncAux_eq_nil (f : Char → Bool) (cs cur : List Char) :
    fieldsFuncAux f cs cur = [] ↔ cur = [] ∧ ∀ c ∈ cs, f c = true := by
  induction cs generalizing cur with
  | nil => cases cur <;> simp [fieldsFuncAux]
  | cons c cs ih =>
    by_cases hc : f c = true
    · cases cur with
      | nil => simp [fieldsFuncAux, hc, ih]
      | cons d ds => simp [fieldsFuncAux, hc]
    · simp [fieldsFuncAux, hc, ih]

/-- A string splits into at least one field exactly when it has a character
that is not a separator. -/
theorem fieldsFunc_length_pos (s : String) (f : Char → Bool) :
    0 < (fieldsFunc s f).length ↔ ∃ c ∈ s.data, f c = false := by
  rw [List.length_pos, Ne, fieldsFunc, fieldsFuncAux_eq_nil]
  simp

/-- C5: the option `BlockByDefault` handed to the IP filter is true if and only
if the comma-split `whitelisted-ips` list or the comma-split
`whitelisted-countries` list has an element, which is to say one of the two
allow-lists handed to the filter is not empty, and this happens exactly when
one of the two strings has a character other than a comma; the banned lists
play no part. -/
theorem block_by_default_iff_allow_list (toUpper : String → String) (cfg : Config)
    (bannedCountries bannedIPs : String) :
    ((ipfilterOpts toUpper cfg).BlockByDefault = true ↔
      0 < (fieldsFunc cfg.whitelistedIPs commaSplitFields).length ∨
      0 < (fieldsFunc cfg.whitelistedCountries commaSplitFields).length) ∧
    (ipfilterOpts toUpper cfg).BlockByDefault =
      (!(ipfilterOpts toUpper cfg).AllowedIPs.isEmpty ||
        !(ipfilterOpts toUpper cfg).AllowedCountries.isEmpty) ∧
    ((ipfilterOpts toUpper cfg).BlockByDefault = true ↔
      (∃ c ∈ cfg.whitelistedIPs.data, c ≠ ',') ∨
      (∃ c ∈ cfg.whitelistedCountries.data, c ≠ ',')) ∧
    (ipfilterOpts toUpper
        { cfg with bannedCountries := bannedCountries, bannedIPs := bannedIPs }).BlockByDefault =
      (ipfilterOpts toUpper cfg).BlockByDefault := by
  have key : (ipfilterOpts toUpper cfg).BlockByDefault = true ↔
      0 < (fieldsFunc cfg.whitelistedIPs commaSplitFields).length ∨
      0 < (fieldsFunc cfg.whitelistedCountries commaSplitFields).length := by
    simp [ipfilterOpts, upperList]
  refine ⟨key, ?_, ?_, ?_⟩
  · rw [Bool.eq_iff_iff]
    simp [ipfilterOpts, upperList, List.length_pos]
  · rw [key, fieldsFunc_length_pos, fieldsFunc_length_pos]
    simp [commaSplitFields]
  · simp [ipfilterOpts]

/-! ## The liveness pinger -/

/-- The pinger loop never tears the connection down nor writes the registry. -/
theorem pingerLoop_no_teardown (T D : Int) (turns : List PingTurn) :
    (pingerLoop T D turns).1.any Event.tearsDown = false := by
  induction turns with
  | nil => simp [pingerLoop]
  | cons t rest ih =>
    rcases hsel : t.sel with ⟨sentAt, sendErr⟩ | _
    · cases sendErr <;> cases hd : t.deadlineErr <;>
        simp_all [pingerLoop, pingDeadline, keepalive, Event.tearsDown]
    · cases hd : t.deadlineErr <;> simp [pingerLoop, hsel, pingDeadline, hd, Event.tearsDown]

/-- After turns whose probes all succeed, a turn that takes the close signal or
whose probe fails ends the loop: what follows is never looked at. -/
theorem pingerLoop_returns (T D : Int) (pre : List PingTurn) (t : PingTurn)
    (post : List PingTurn)
    (hpre : ∀ p ∈ pre, ∃ sentAt, p.sel = .tick sentAt false)
    (ht : t.sel = .closed ∨ ∃ sentAt, t.sel = .tick sentAt true) :
    (pingerLoop T D (pre ++ t :: post)).2 = .returned ∧
    pingerLoop T D (pre ++ t :: post) = pingerLoop T D (pre ++ [t]) := by
  induction pre with
  | nil =>
    rcases ht with h | ⟨sentAt, h⟩ <;> simp [pingerLoop, h]
  | cons p pre ih =>
    obtain ⟨sentAt, hp⟩ := hpre p (List.mem_cons_self _ _)
    have ih1 := ih (fun q hq => hpre q (List.mem_cons_of_mem _ hq))
    have h2 := ih1.2
    have h1 := ih1.1
    rw [h2] at h1
    simp [pingerLoop, hp, h1, h2]

/-- C7: with the ticker running, once a probe send returns an error, or the
`select` takes the close signal, the pinger goroutine returns and looks at
nothing further; and whatever it observes, none of its actions is a call of
`CleanUp` (the only way the close signal is fired and the registry entry
removed), a `conn.Close()` or a registry store: it only writes deadlines,
sends probes and logs. -/
theorem pinger_exits_without_teardown (cfg : Config) (pre : List PingTurn) (t : PingTurn)
    (post : List PingTurn) (hT : 0 < cfg.pingClientInterval)
    (hpre : ∀ p ∈ pre, ∃ sentAt, p.sel = .tick sentAt false)
    (ht : t.sel = .closed ∨ ∃ sentAt, t.sel = .tick sentAt true) :
    (pinger cfg (pre ++ t :: post)).2 = .returned ∧
    pinger cfg (pre ++ t :: post) = pinger cfg (pre ++ [t]) ∧
    (pinger cfg (pre ++ t :: post)).1.any Event.tearsDown = false ∧
    Event.cleanUp ∉ (pinger cfg (pre ++ t :: post)).1 ∧
    Event.connClose ∉ (pinger cfg (pre ++ t :: post)).1 := by
  have hne : ¬ cfg.pingClientInterval ≤ 0 := by omega
  have hret := pingerLoop_returns cfg.pingClientInterval cfg.connectionIdleTimeout pre t post
    hpre ht
  have hq := pingerLoop_no_teardown cfg.pingClientInterval cfg.connectionIdleTimeout
    (pre ++ t :: post)
  simp only [pinger, hne, if_false]
  refine ⟨hret.1, hret.2, hq, ?_, ?_⟩
  · intro hmem
    have := List.any_eq_true.mpr ⟨_, hmem, (rfl : Event.tearsDown .cleanUp = true)⟩
    rw [hq] at this
    exact Bool.noConfusion this
  · intro hmem
    have := List.any_eq_true.mpr ⟨_, hmem, (rfl : Event.tearsDown .connClose = true)⟩
    rw [hq] at this
    exact Bool.noConfusion this

/-- Witness of C7: one good probe, then a probe whose send fails. -/
theorem pinger_exits_without_teardown_witness :
    (pinger pingEveryFiveSeconds
      ([⟨0, false, .tick 5000000000 false⟩] ++
        ⟨5000000001, false, .tick 10000000000 true⟩ :: [⟨7, true, .closed⟩])).2 = .returned :=
  (pinger_exits_without_teardown pingEveryFiveSeconds [⟨0, false, .tick 5000000000 false⟩]
    ⟨5000000001, false, .tick 10000000000 true⟩ [⟨7, true, .closed⟩] (by decide)
    (by simp) (Or.inr ⟨10000000000, rfl⟩)).1

/-- The deadlines the loop writes are, turn by turn, clock plus interval plus
idle timeout. -/
theorem pingerLoop_deadlines (T D : Int) (turns : List PingTurn) :
    deadlinesWritten (pingerLoop T D turns).1 = (executed turns).map (fun t => t.now + T + D) := by
  induction turns with
  | nil => simp [pingerLoop, executed, deadlinesWritten]
  | cons t rest ih =>
    rcases hsel : t.sel with ⟨sentAt, sendErr⟩ | _
    · cases sendErr <;> cases hd : t.deadlineErr <;>
        simp_all [pingerLoop, pingDeadline, keepalive, executed, deadlinesWritten]
    · cases hd : t.deadlineErr <;>
        simp [pingerLoop, hsel, pingDeadline, hd, executed, deadlinesWritten]

/-- The loop sends one probe for each tick its `select` takes. -/
theorem pingerLoop_probes (T D : Int) (turns : List PingTurn) :
    probesSent (pingerLoop T D turns).1 = ticksTaken (executed turns) := by
  induction turns with
  | nil => simp [pingerLoop, executed, probesSent, ticksTaken]
  | cons t rest ih =>
    rcases hsel : t.sel with ⟨sentAt, sendErr⟩ | _
    · cases sendErr <;> cases hd : t.deadlineErr <;>
        simp_all [pingerLoop, pingDeadline, keepalive, executed, probesSent, ticksTaken,
          PingSelect.isTick] <;> omega
    · cases hd : t.deadlineErr <;>
        simp [pingerLoop, hsel, pingDeadline, hd, executed, probesSent, ticksTaken,
          PingSelect.isTick]

/-- After a turn whose probe succeeds the loop goes through the next turn. -/
theorem executed_next (turns : List PingTurn) (i : Nat) (t : PingTurn) (sentAt : Int)
    (hi : (executed turns)[i]? = some t) (ht : t.sel = .tick sentAt false) :
    (executed turns)[i + 1]? = turns[i + 1]? := by
  induction turns generalizing i with
  | nil => simp [executed] at hi
  | cons u rest ih =>
    rcases hsel : u.sel with ⟨s, sendErr⟩ | _
    · cases sendErr
      · cases i with
        | zero =>
          cases rest with
          | nil => simp [executed, hsel]
          | cons v rest2 =>
            rcases hv : v.sel with ⟨s2, e2⟩ | _
            · cases e2 <;> simp [executed, hsel, hv]
            · simp [executed, hsel, hv]
        | succ j =>
          simp only [executed, hsel, List.getElem?_cons_succ] at hi ⊢
          exact ih j hi
      · cases i with
        | zero =>
          simp [executed, hsel] at hi
          rw [hi, ht] at hsel
          simp at hsel
        | succ j => simp [executed, hsel] at hi
    · cases i with
      | zero =>
        simp [executed, hsel] at hi
        rw [hi, ht] at hsel
        simp at hsel
      | succ j => simp [executed, hsel] at hi

/-- C8: with a positive interval T and idle timeout D, the pinger sends one
keepalive probe per tick its `select` takes; in every turn of its loop, the
first included, it calls `SetDeadline` with exactly the clock value of that turn
plus T plus D; so after a probe sent successfully at time t the next deadline
written is the clock value of the next turn plus T plus D, which is at or past
t + T + D as the clock does not run backwards. -/
theorem pinger_deadline_follows_probe (cfg : Config) (turns : List PingTurn)
    (hT : 0 < cfg.pingClientInterval) :
    probesSent (pinger cfg turns).1 = ticksTaken (executed turns) ∧
    deadlinesWritten (pinger cfg turns).1 =
      (executed turns).map
        (fun t => t.now + cfg.pingClientInterval + cfg.connectionIdleTimeout) ∧
    ∀ (i : Nat) (t next : PingTurn) (sentAt : Int),
      (executed turns)[i]? = some t → t.sel = .tick sentAt false →
      turns[i + 1]? = some next → sentAt ≤ next.now →
      ∃ d, (deadlinesWritten (pinger cfg turns).1)[i + 1]? = some d ∧
        d = next.now + cfg.pingClientInterval + cfg.connectionIdleTimeout ∧
        sentAt + cfg.pingClientInterval + cfg.connectionIdleTimeout ≤ d := by
  have hne : ¬ cfg.pingClientInterval ≤ 0 := by omega
  have hdl := pingerLoop_deadlines cfg.pingClientInterval cfg.connectionIdleTimeout turns
  simp only [pinger, hne, if_false]
  refine ⟨pingerLoop_probes _ _ turns, hdl, ?_⟩
  intro i t next sentAt hi ht hnext hclock
  have hex := executed_next turns i t sentAt hi ht
  rw [hnext] at hex
  refine ⟨next.now + cfg.pingClientInterval + cfg.connectionIdleTimeout, ?_, rfl, by omega⟩
  rw [hdl, List.getElem?_map, hex]
  rfl

/-- Witness of C8: a first probe sent at 5 s, the next turn begins just after. -/
theorem pinger_deadline_follows_probe_witness :
    deadlinesWritten (pinger pingEveryFiveSeconds
      [⟨0, false, .tick 5000000000 false⟩, ⟨5000000001, false, .closed⟩]).1 =
      [6000000000, 11000000001] := by
  have h := (pinger_deadline_follows_probe pingEveryFiveSeconds
    [⟨0, false, .tick 5000000000 false⟩, ⟨5000000001, false, .closed⟩] (by decide)).2.1
  rw [h]
  decide

/-! ## Cleanup under interleaving -/

/-- C2, at the failing schedule: the idle-forwarding watchdog wakes on its timer
with no listener and sends its message; while it sleeps the transport ends and
the transport-close watcher, finding the close signal not fired, calls `CleanUp`;
then the watchdog calls `CleanUp` as well. Every step of the schedule can be
taken, `CleanUp` has been called twice, and the second call was made with the
close signal already fired. -/
theorem cleanUp_called_twice :
    ((Supervisor.start cleanupUnboundOnly).run raceSchedule).map
      (fun s => (s.cleanUpCalls, s.cleanUpAfterClose, s.messages, s.tw, s.iw)) =
      some (2, 1, 1, .done, .done) := by
  decide

/-! ## The unbound-connection watchdog and the flag -/

theorem Unbound.inv_start (cfg : Config) : (Unbound.start cfg).Inv := by
  cases h : cfg.cleanupUnbound <;> simp [Unbound.Inv, Unbound.start, h, HsPc.flagAssigned]

theorem Unbound.inv_step (s s1 : Unbound) (a : UnboundAction) (hs : s.Inv)
    (h : s.step a = some s1) : s1.Inv := by
  obtain ⟨flag, hsPc, wdPc, cw, ch, aw, atTest, ft⟩ := s
  obtain ⟨h1, h2, h3⟩ := hs
  simp only at h1 h2 h3
  cases a with
  | hsReturns err =>
    cases hsPc <;> simp [Unbound.step] at h
    subst h
    exact ⟨by simpa [HsPc.flagAssigned] using h1, h2, h3⟩
  | hsAssigns =>
    cases hsPc <;> simp [Unbound.step] at h
    subst h
    exact ⟨by simp [HsPc.flagAssigned], h2, h3⟩
  | hsChecks =>
    cases hsPc <;> simp [Unbound.step] at h
    subst h
    exact ⟨by simpa [HsPc.flagAssigned] using h1, h2, h3⟩
  | wdWakes =>
    simp [Unbound.step] at h
    obtain ⟨hw, rfl⟩ := h
    subst hw
    refine ⟨h1, ?_, ?_⟩
    · intro _
      exact h2 (by simp)
    · intro hc
      simp at hc
  | wdTests =>
    simp [Unbound.step] at h
    obtain ⟨hw, rfl⟩ := h
    subst hw
    have h2a := h2 (by simp)
    refine ⟨h1, ?_, ?_⟩
    · intro hc
      simp at hc
    · intro _
      refine ⟨hsPc, rfl, ?_, ?_⟩
      · simp [h1]
      · simp [h2a.1, h1]

theorem Unbound.inv_run (sched : List UnboundAction) (s s1 : Unbound) (hs : s.Inv)
    (h : s.run sched = some s1) : s1.Inv := by
  induction sched generalizing s with
  | nil =>
    simp [Unbound.run] at h
    exact h ▸ hs
  | cons a rest ih =>
    simp only [Unbound.run] at h
    cases hstep : s.step a with
    | none => simp [hstep] at h
    | some s2 =>
      simp [hstep] at h
      exact ih s2 (Unbound.inv_step s s2 a hs hstep) h

/-- C10 as stated fails: the handshake has returned without error when the five
seconds are over, and the watchdog closes the connection all the same, because
it tests the flag before the assignment of line 194 has run. -/
theorem watchdog_closes_after_successful_handshake :
    ((Unbound.start cleanupUnboundOnly).run lateFlagSchedule).map
      (fun s => (s.closedByWatchdog, s.hsAtWake, s.flagAtTest, s.closedByHandshake)) =
      some (true, some (.assigning false), some false, false) := by
  decide

/-- C10, amended: in every state the goroutines of an accepted connection can
reach, the watchdog has closed the raw connection if and only if the flag was
false when it tested it after its five-second wait; the flag is true exactly
from the assignment that follows the return of `ssh.NewServerConn`, which is
executed for a failed as for a successful handshake; hence the watchdog has
closed the connection exactly when that assignment had not run at its test: it
closes whenever the handshake has not returned by then and never closes a
connection whose flag was assigned before. -/
theorem watchdog_closes_iff_flag_unassigned (cfg : Config) (sched : List UnboundAction)
    (s : Unbound) (h : (Unbound.start cfg).run sched = some s) :
    (s.closedByWatchdog = true ↔ s.flagAtTest = some false) ∧
    (s.clientLoggedIn = true ↔ s.hs = .past ∨ ∃ err, s.hs = .checking err) ∧
    (s.closedByWatchdog = true ↔
      s.hsAtTest = some .handshaking ∨ ∃ err, s.hsAtTest = some (.assigning err)) ∧
    (s.closedByWatchdog = false ↔
      s.hsAtTest = none ∨ s.hsAtTest = some .past ∨ ∃ err, s.hsAtTest = some (.checking err)) := by
  obtain ⟨h1, h2, h3⟩ := Unbound.inv_run sched _ s (Unbound.inv_start cfg) h
  have hflag : s.clientLoggedIn = true ↔ s.hs = .past ∨ ∃ err, s.hs = .checking err := by
    rw [h1]
    cases s.hs <;> simp [HsPc.flagAssigned]
  by_cases hd : s.wd = .done
  · obtain ⟨pc, hp, hf, hc⟩ := h3 hd
    rw [hp, hf, hc]
    refine ⟨?_, hflag, ?_, ?_⟩ <;> cases pc <;> simp [HsPc.flagAssigned]
  · obtain ⟨hc, hp, hf⟩ := h2 hd
    rw [hp, hf, hc]
    refine ⟨?_, hflag, ?_, ?_⟩ <;> simp

/-- Witness of C10 amended, at the schedule where the flag is assigned late. -/
theorem watchdog_closes_iff_flag_unassigned_witness :
    (Unbound.start cleanupUnboundOnly).run lateFlagSchedule = some lateFlagEnd ∧
    (lateFlagEnd.closedByWatchdog = true ↔ lateFlagEnd.flagAtTest = some false) :=
  ⟨by decide,
    (watchdog_closes_iff_flag_unassigned cleanupUnboundOnly lateFlagSchedule lateFlagEnd
      (by decide)).1⟩

end Sshmuxer
